import Mathlib

/-!
# Verification of the saaskit KV data-access layer

A shallow embedding of `utils/db.ts`: a transactional key-value store in the
style of Deno KV (point get, atomic check-then-write transactions with
per-key versionstamps), the entity operations built on it
(`createItem`, `createComment`, `createVote`, `deleteVote`, `createUser`,
`setUserSubscription`, `setUserSession`, `getUsersByIds`, `batchify`),
and the ranking-score function `computeZeroToOneScore`.

Keys are lists of strings, as in the source.  Versionstamps are modelled as
naturals drawn from a monotone counter.  An atomic transaction evaluates all
of its checks against the commit-time state and applies all of its writes
only if every check passes, otherwise it changes nothing — this is the
contract of the external store.

Operations that follow an optimistic read-then-commit pattern are modelled
with two explicit states per attempt: the state `stR` observed by the reads
of that attempt and the state `stC` the commit is evaluated against.  This
makes lost races representable: a version check recorded at `stR` can fail
at `stC`.  Retry loops take the list of such state pairs, one per iteration
actually executed.
-/

/-- `crypto.randomUUID` results, `Date.now`, etc. are inputs to the model. -/
abbrev Key := List String

/-- The `Item` record (`interface Item extends InitItem`): creation data
plus id, creation time (ms) and the integer vote count `score`. -/
structure Item where
  userId : String
  title : String
  url : String
  id : String
  createdAt : Nat
  score : Int
deriving DecidableEq, Repr

/-- The fields of `InitItem` passed to `createItem`. -/
structure InitItem where
  userId : String
  title : String
  url : String
deriving DecidableEq, Repr

/-- The `Comment` record (`interface Comment extends InitComment`). -/
structure Comment where
  userId : String
  itemId : String
  text : String
  id : String
  createdAt : Nat
deriving DecidableEq, Repr

/-- The fields of `InitComment` passed to `createComment`. -/
structure InitComment where
  userId : String
  itemId : String
  text : String
deriving DecidableEq, Repr

/-- The `User` record (`interface User extends InitUser`). -/
structure User where
  id : String
  login : String
  avatarUrl : String
  stripeCustomerId : String
  sessionId : String
  isSubscribed : Bool
deriving DecidableEq, Repr

/-- The fields of `InitUser` passed to `createUser`. -/
structure InitUser where
  id : String
  login : String
  avatarUrl : String
  stripeCustomerId : String
  sessionId : String
deriving DecidableEq, Repr

/-- Values storable in the KV store by this program: items, comments,
users, and the `undefined` stored at vote-marker keys. -/
inductive KvValue where
  | item (it : Item)
  | comment (c : Comment)
  | user (u : User)
  | undef
deriving DecidableEq, Repr

/-- The store: an association list from keys to (value, versionstamp),
newest binding first, plus the versionstamp counter. -/
structure KV where
  entries : List (Key × KvValue × Nat)
  next : Nat
deriving DecidableEq, Repr

/-- Point lookup (`kv.get`): first binding of the key, `none` when absent
(`value: null, versionstamp: null` in Deno KV). -/
def alGet : List (Key × KvValue × Nat) → Key → Option (KvValue × Nat)
  | [], _ => none
  | (k', v) :: rest, k => if k = k' then some v else alGet rest k

/-- The value stored at a key, if any. -/
def kvGet (st : KV) (k : Key) : Option KvValue :=
  (alGet st.entries k).map Prod.fst

/-- The versionstamp of a key, if present. -/
def kvVs (st : KV) (k : Key) : Option Nat :=
  (alGet st.entries k).map Prod.snd

/-- One operation of an atomic transaction: a `.check(key, versionstamp)`
(where `none` asserts absence), a `.set(key, value)` or a `.delete(key)`. -/
inductive KvOp where
  | check (k : Key) (vs : Option Nat)
  | setv (k : Key) (v : KvValue)
  | del (k : Key)
deriving DecidableEq, Repr

/-- All checks of a transaction, evaluated against the commit-time state. -/
def checksPass (st : KV) : List KvOp → Bool
  | [] => true
  | .check k vs :: rest => decide (kvVs st k = vs) && checksPass st rest
  | .setv _ _ :: rest => checksPass st rest
  | .del _ :: rest => checksPass st rest

/-- Apply the writes of a transaction; each `set` consumes a fresh
versionstamp. -/
def applyOps (st : KV) : List KvOp → KV
  | [] => st
  | .check _ _ :: rest => applyOps st rest
  | .setv k v :: rest => applyOps ⟨(k, v, st.next) :: st.entries, st.next + 1⟩ rest
  | .del k :: rest => applyOps ⟨st.entries.filter (fun e => !decide (e.1 = k)), st.next⟩ rest

/-- `kv.atomic()....commit()`: all-or-nothing.  Returns the new state when
every check passes (`res.ok`), and `none` when the transaction aborts with
no partial effect. -/
def kvCommit (st : KV) (ops : List KvOp) : Option KV :=
  if checksPass st ops then some (applyOps st ops) else none

/-! ## Item creation (`createItem`, lines 22-81)

`createItem` generates an id, builds the item with `score = 0` and a
server-assigned timestamp, and commits a single-key transaction guarded by
an absence check.  On commit failure it logs and returns `undefined`.  On
success it POSTs a telemetry event to Tinybird with no try/catch around the
`fetch`: a non-2xx response is only logged (`console.error`), but a
rejected `fetch` (transport error) or a failing `resp.json()` propagates
out of `createItem` as an exception.  The outcome of the outbound POST is
an input to the model. -/

/-- Outcome of the outbound `fetch`: either the promise rejects (transport
error) or a response arrives with `resp.ok`, its status, and whether
`resp.json()` succeeds (only consulted on 2xx). -/
inductive FetchOutcome where
  | transportError (msg : String)
  | response (ok : Bool) (status : Nat) (jsonOk : Bool)
deriving DecidableEq, Repr

/-- The primary key `["items", id]`. -/
def itemKey (id : String) : Key := ["items", id]

/-- The freshly constructed item: `score: 0`, `createdAt: new Date()`,
spread of `initItem`, and the generated id. -/
def mkItem (ii : InitItem) (id : String) (now : Nat) : Item :=
  ⟨ii.userId, ii.title, ii.url, id, now, 0⟩

/-- `createItem`: result value (`.error` models a thrown exception,
`.ok none` the silent `return` after a failed commit) together with the
resulting store state. -/
def createItem (ii : InitItem) (id : String) (now : Nat) (fetch : FetchOutcome)
    (st : KV) : Except String (Option Item) × KV :=
  let item := mkItem ii id now
  match kvCommit st [.check (itemKey id) none, .setv (itemKey id) (.item item)] with
  | none => (.ok none, st)
  | some st' =>
    match fetch with
    | .transportError msg => (.error msg, st')
    | .response ok _ jsonOk =>
      if ok then
        if jsonOk then (.ok (some item), st') else (.error "resp.json() failed", st')
      else (.ok (some item), st')

/-! ## Comment creation (`createComment`, lines 114-131)

The `while (!res.ok)` loop body ends in an unconditional `return comment`:
the loop body runs exactly once (the guard is initially true) and the
comment is returned whether or not the transaction committed. -/

/-- The key `["comments_by_users", userId, id]`. -/
def commentUserKey (ic : InitComment) (id : String) : Key :=
  ["comments_by_users", ic.userId, id]

/-- The key `["comments_by_item", itemId, id]`. -/
def commentItemKey (ic : InitComment) (id : String) : Key :=
  ["comments_by_item", ic.itemId, id]

/-- The freshly constructed comment. -/
def mkComment (ic : InitComment) (id : String) (now : Nat) : Comment :=
  ⟨ic.userId, ic.itemId, ic.text, id, now⟩

/-- The single transaction of `createComment`: absence checks on both
denormalized keys, then both writes. -/
def createCommentOps (ic : InitComment) (id : String) (now : Nat) : List KvOp :=
  [.check (commentUserKey ic id) none,
   .check (commentItemKey ic id) none,
   .setv (commentUserKey ic id) (.comment (mkComment ic id now)),
   .setv (commentItemKey ic id) (.comment (mkComment ic id now))]

/-- `createComment`: one commit attempt, then `return comment`
unconditionally.  A failed transaction leaves the store unchanged and the
(unstored) comment is still handed to the caller. -/
def createComment (ic : InitComment) (id : String) (now : Nat) (st : KV) :
    Option Comment × KV :=
  match kvCommit st (createCommentOps ic id now) with
  | some st' => (some (mkComment ic id now), st')
  | none => (some (mkComment ic id now), st)

/-! ## Vote operations (`createVote` lines 150-168, `deleteVote` lines 170-192)

Both loop until a transaction commits.  Each iteration is a function of the
state `stR` its reads observe and the state `stC` its commit is evaluated
against; the loop consumes one `(stR, stC)` pair per iteration.  The result
`.ok none` means the fuel list was exhausted with the loop still running,
`.ok (some st')` a normal return with final state `st'`, `.error` a thrown
exception. -/

/-- The marker key `["votes_by_users", userId, itemId]`. -/
def voteKey (userId itemId : String) : Key := ["votes_by_users", userId, itemId]

/-- `itemRes.value.score++` on the value read (the program only ever stores
items under `["items", _]`, so the other branches are inert). -/
def incScore : KvValue → KvValue
  | .item it => .item { it with score := it.score + 1 }
  | v => v

/-- `itemRes.value.score--` (see `incScore`). -/
def decScore : KvValue → KvValue
  | .item it => .item { it with score := it.score - 1 }
  | v => v

/-- One iteration of `createVote`: read the item at `stR`, throw if absent,
increment the in-memory score, then attempt the transaction against `stC`:
absence check on the marker, versionstamp check on the item, write of the
updated item and of the marker (value `undefined`). -/
def createVoteIter (userId itemId : String) (stR stC : KV) :
    Except String (Option KV) :=
  match alGet stR.entries (itemKey itemId) with
  | none => .error "Item does not exist"
  | some (v, vs) =>
    .ok (kvCommit stC
      [.check (voteKey userId itemId) none,
       .check (itemKey itemId) (some vs),
       .setv (itemKey itemId) (incScore v),
       .setv (voteKey userId itemId) .undef])

/-- The `while (!res.ok)` loop of `createVote` over the iterations'
state pairs. -/
def createVote (userId itemId : String) : List (KV × KV) → Except String (Option KV)
  | [] => .ok none
  | (stR, stC) :: rest =>
    match createVoteIter userId itemId stR stC with
    | .error e => .error e
    | .ok (some st') => .ok (some st')
    | .ok none => createVote userId itemId rest

/-- One iteration of `deleteVote`: read item and marker at `stR`; throw if
the item is absent; return (no write at all) if the marker is absent;
otherwise decrement and attempt the transaction against `stC`, guarded by
both versionstamps, writing the item and deleting the marker.
`.ok (some st)` is a normal return with final state `st`; the early return
yields `stC` unchanged. -/
def deleteVoteIter (userId itemId : String) (stR stC : KV) :
    Except String (Option KV) :=
  match alGet stR.entries (itemKey itemId), alGet stR.entries (voteKey userId itemId) with
  | none, _ => .error "Item does not exist"
  | some _, none => .ok (some stC)
  | some (v, vs), some (_, vvs) =>
    .ok (kvCommit stC
      [.check (itemKey itemId) (some vs),
       .check (voteKey userId itemId) (some vvs),
       .setv (itemKey itemId) (decScore v),
       .del (voteKey userId itemId)])

/-- The `while (!res.ok)` loop of `deleteVote`. -/
def deleteVote (userId itemId : String) : List (KV × KV) → Except String (Option KV)
  | [] => .ok none
  | (stR, stC) :: rest =>
    match deleteVoteIter userId itemId stR stC with
    | .error e => .error e
    | .ok (some st') => .ok (some st')
    | .ok none => deleteVote userId itemId rest

/-! ## User operations (`createUser` lines 218-245, `setUserSubscription`
lines 287-334, `setUserSession` lines 337-381) -/

/-- The four index keys of a user record, in source order:
primary, by login, by session, by stripe customer. -/
def userKeys (u : User) : List Key :=
  [["users", u.id],
   ["users_by_login", u.login],
   ["users_by_session", u.sessionId],
   ["users_by_stripe_customer", u.stripeCustomerId]]

/-- `{ ...user, isSubscribed: false }`. -/
def mkUser (iu : InitUser) : User :=
  ⟨iu.id, iu.login, iu.avatarUrl, iu.stripeCustomerId, iu.sessionId, false⟩

/-- The single transaction of `createUser`: absence checks on all four
keys, then the same record written to all four. -/
def createUserOps (iu : InitUser) : List KvOp :=
  [.check ["users", iu.id] none,
   .check ["users_by_login", iu.login] none,
   .check ["users_by_session", iu.sessionId] none,
   .check ["users_by_stripe_customer", iu.stripeCustomerId] none,
   .setv ["users", iu.id] (.user (mkUser iu)),
   .setv ["users_by_login", iu.login] (.user (mkUser iu)),
   .setv ["users_by_session", iu.sessionId] (.user (mkUser iu)),
   .setv ["users_by_stripe_customer", iu.stripeCustomerId] (.user (mkUser iu))]

/-- `createUser`: commit the four-way write or `throw res`
(modelled as `.error ()`); a failed commit leaves the store untouched. -/
def createUser (iu : InitUser) (st : KV) : Except Unit User × KV :=
  match kvCommit st (createUserOps iu) with
  | some st' => (.ok (mkUser iu), st')
  | none => (.error (), st)

/-- `setUserSubscription`: multi-get all four copies at `stR`, assert each
exists (`AssertionError` otherwise), then commit against `stC` a
transaction checking all four read versionstamps and overwriting all four
keys with `{ ...user, isSubscribed }`.  A failed check is a thrown hard
failure; there is no retry. -/
def setUserSubscription (user : User) (isSubscribed : Bool) (stR stC : KV) :
    Except String Unit × KV :=
  let u' : User := { user with isSubscribed := isSubscribed }
  match alGet stR.entries ["users", user.id],
        alGet stR.entries ["users_by_login", user.login],
        alGet stR.entries ["users_by_session", user.sessionId],
        alGet stR.entries ["users_by_stripe_customer", user.stripeCustomerId] with
  | some (_, vs1), some (_, vs2), some (_, vs3), some (_, vs4) =>
    match kvCommit stC
        [.check ["users", user.id] (some vs1),
         .check ["users_by_login", user.login] (some vs2),
         .check ["users_by_session", user.sessionId] (some vs3),
         .check ["users_by_stripe_customer", user.stripeCustomerId] (some vs4),
         .setv ["users", user.id] (.user u'),
         .setv ["users_by_login", user.login] (.user u'),
         .setv ["users_by_session", user.sessionId] (.user u'),
         .setv ["users_by_stripe_customer", user.stripeCustomerId] (.user u')] with
    | some st' => (.ok (), st')
    | none => (.error "commit failed", stC)
  | _, _, _, _ => (.error "AssertionError", stR)

/-- `setUserSession`: multi-get the three non-session copies at `stR`,
assert each exists, then commit against `stC` a transaction checking those
three versionstamps plus an absence check on the new session key, writing
`{ ...user, sessionId }` to all four keys.  The caller is assumed to have
cleared the previous session key; this operation never touches it. -/
def setUserSession (user : User) (sessionId : String) (stR stC : KV) :
    Except String Unit × KV :=
  let u' : User := { user with sessionId := sessionId }
  match alGet stR.entries ["users", user.id],
        alGet stR.entries ["users_by_login", user.login],
        alGet stR.entries ["users_by_stripe_customer", user.stripeCustomerId] with
  | some (_, vs1), some (_, vs2), some (_, vs4) =>
    match kvCommit stC
        [.check ["users", user.id] (some vs1),
         .check ["users_by_login", user.login] (some vs2),
         .check ["users_by_session", sessionId] none,
         .check ["users_by_stripe_customer", user.stripeCustomerId] (some vs4),
         .setv ["users", user.id] (.user u'),
         .setv ["users_by_login", user.login] (.user u'),
         .setv ["users_by_session", sessionId] (.user u'),
         .setv ["users_by_stripe_customer", user.stripeCustomerId] (.user u')] with
    | some st' => (.ok (), st')
    | none => (.error "commit failed", stC)
  | _, _, _ => (.error "AssertionError", stR)

/-- All four index copies of `u` exist and hold exactly the record `u`. -/
def fourIdentical (st : KV) (u : User) : Prop :=
  ∀ k ∈ userKeys u, kvGet st k = some (.user u)

instance (st : KV) (u : User) : Decidable (fourIdentical st u) :=
  List.decidableBAll _ _

/-! ## Batched lookup (`getUsersByIds` lines 424-432, `batchify` lines 434-438) -/

/-- Fueled version of the `batchify` generator: `fuel` bounds the number of
yields.  With `0 < n` and `fuel ≥ arr.length` this is exactly the JS
generator `for (let i = 0; i < arr.length; i += n) yield arr.slice(i, i + n)`
(with `n = 0` the generator never terminates; it is only called with 10). -/
def batchifyAux (n : Nat) : Nat → List α → List (List α)
  | 0, _ => []
  | _ + 1, [] => []
  | fuel + 1, x :: xs => (x :: xs).take n :: batchifyAux n fuel ((x :: xs).drop n)

/-- `batchify(arr, n)`, collected to a list of batches. -/
def batchify (arr : List α) (n : Nat) : List (List α) :=
  batchifyAux n arr.length arr

/-- `kv.getMany`: one lookup per key, results aligned with the input. -/
def kvGetMany (st : KV) (keys : List Key) : List (Option (KvValue × Nat)) :=
  keys.map (alGet st.entries)

/-- `getUsersByIds`: map ids to `["users", id]` keys, issue one `getMany`
per batch of at most 10, and concatenate the raw `entry.value` results in
order.  A missing id contributes its `null` value (modelled as `none`)
despite the declared `User[]` type. -/
def getUsersByIds (st : KV) (ids : List String) : List (Option KvValue) :=
  ((batchify (ids.map (fun id => ["users", id])) 10).map
    (fun batch => (kvGetMany st batch).map (Option.map Prod.fst))).flatten

/-! ## The ranking score (`computeZeroToOneScore`, lines 440-446)

```
const computeZeroToOneScore = (score, timestampMs) => {
  if (score === 0) return 0.5;
  const days = Math.max(0.01, ((new Date()).getTime() - timestampMs) / (1000*3600*24));
  const val = 0.2 * (1 / (2 ** sqrt(sqrt(1 + days)))) +
              0.8 * (1 + 1 / (2 * log(1 + score))) / (1 + 1 / (1 * log(1 + score)));
  const bounded = Math.min(1.0, Math.max(0.1, val));
  return bounded.toFixed(18).slice(2, 18);
}
```

The function is modelled twice, for its two aspects.

* `computeZeroToOneScore` models the returned JavaScript value — the
  number `0.5` on the zero branch, otherwise the string produced by
  clamping, `toFixed(18)` and `slice(2, 18)`.  The IEEE-754 double `val`
  of line 443 is abstracted as a rational parameter (every double is an
  exact rational, and `timestampMs` enters the result only through it);
  clamping, rounding to 18 decimal digits (the ECMAScript `toFixed`
  rounding: nearest, ties away from zero — "pick the larger n") and the
  slice are modelled exactly.

* `scoreValue` models the numeric value of lines 441-444 over the real
  numbers (exact-real reading of the double arithmetic), for the
  monotonicity properties.
-/

/-- A JavaScript value returned by `computeZeroToOneScore`: the function
returns the number `0.5` on the zero branch and a string otherwise. -/
inductive JsValue where
  | num (q : ℚ)
  | str (s : String)
deriving DecidableEq, Repr

/-- `Math.min(1.0, Math.max(0.1, val))`, line 444. -/
def clampQ (val : ℚ) : ℚ := min 1 (max (1 / 10) val)

/-- `b` scaled to 18 decimal digits and rounded to the nearest integer,
ties upward — the integer `n` chosen by `toFixed(18)` for `0 ≤ b`. -/
def roundN (b : ℚ) : Nat := (⌊b * 10 ^ 18 + 1 / 2⌋).toNat

/-- The decimal digits of `m` as characters. -/
def digitChar (d : Nat) : Char := Char.ofNat (48 + d)

/-- The `k`-digit zero-padded decimal rendering of `m < 10 ^ k`,
most significant digit first. -/
def padDigits (k m : Nat) : List Char :=
  (List.range k).map (fun idx => digitChar (m / 10 ^ (k - 1 - idx) % 10))

/-- `b.toFixed(18)` for `0 ≤ b`: the decimal integer part, a point, and
18 fractional digits of the rounded value. -/
def toFixed18 (b : ℚ) : String :=
  Nat.repr (roundN b / 10 ^ 18) ++ "." ++ String.mk (padDigits 18 (roundN b % 10 ^ 18))

/-- `s.slice(a, b)` for `0 ≤ a ≤ b`: the characters at indices
`[a, b)`. -/
def jsSlice (s : String) (a b : Nat) : String :=
  String.mk ((s.data.drop a).take (b - a))

/-- The returned value of `computeZeroToOneScore`: the number `0.5` when
`score === 0`, otherwise the sliced fixed-point rendering of the clamped
blend `val` (see the section comment for the abstraction of `val`). -/
def computeZeroToOneScore (score : Int) (timestampMs : Int) (val : ℚ) : JsValue :=
  if score = 0 then .num (1 / 2)
  else .str (jsSlice (toFixed18 (clampQ val)) 2 18)

/-- `days`, line 442: age in days floored at 0.01. -/
noncomputable def daysOf (nowMs timestampMs : ℝ) : ℝ :=
  max 0.01 ((nowMs - timestampMs) / (1000 * 3600 * 24))

/-- `val`, line 443, over the reals. -/
noncomputable def blendVal (score : Nat) (days : ℝ) : ℝ :=
  0.2 * (1 / (2 : ℝ) ^ Real.sqrt (Real.sqrt (1 + days))) +
    0.8 * (1 + 1 / (2 * Real.log (1 + score))) / (1 + 1 / (1 * Real.log (1 + score)))

/-- `bounded`, line 444. -/
noncomputable def boundedVal (score : Nat) (days : ℝ) : ℝ :=
  min 1.0 (max 0.1 (blendVal score days))

/-- The numeric score of lines 441-444: `0.5` for a zero vote count,
otherwise the clamped blend at the item's age. -/
noncomputable def scoreValue (score : Nat) (nowMs timestampMs : ℝ) : ℝ :=
  if score = 0 then 0.5 else boundedVal score (daysOf nowMs timestampMs)

deriving instance DecidableEq for Except

/-- Projection used by concrete instantiations of the loop theorems. -/
def resultState (r : Except String (Option KV)) : KV :=
  match r with
  | .ok (some st) => st
  | _ => ⟨[], 0⟩

/-- The empty store. -/
def kv0 : KV := ⟨[], 0⟩

/-- A sample item. -/
def itA : Item := ⟨"author", "title", "https://a.example", "i1", 0, 0⟩

/-- A store holding only `itA` under `["items", "i1"]`. -/
def stItem : KV := ⟨[(itemKey "i1", .item itA, 0)], 1⟩

/-- Sample comment creation data. -/
def icA : InitComment := ⟨"u1", "i1", "hello"⟩

/-- A store in which the comments-by-user key for `icA` and id `"id1"` is
already taken, so the `createComment` transaction aborts. -/
def stCommentTaken : KV := ⟨[(commentUserKey icA "id1", .undef, 0)], 1⟩

/-- Sample user creation data. -/
def iuA : InitUser := ⟨"uid1", "login1", "https://av.example", "cus_1", "sess1"⟩

/-- Sample item creation data. -/
def iiA : InitItem := ⟨"author", "title", "https://a.example"⟩

/-- Well-typedness of an entry read from an `["items", _]` key: absent, or
an `Item` value (the TypeScript `kv.get<Item>` cast). -/
def isItemEntry : Option (KvValue × Nat) → Bool
  | some (.item _, _) => true
  | some _ => false
  | none => true

/-! ## Lemmas: batching -/

theorem batchifyAux_nil (n fuel : Nat) : batchifyAux n fuel ([] : List α) = [] := by
  cases fuel <;> rfl

theorem batchifyAux_congr (n : Nat) (hn : 0 < n) :
    ∀ (f1 : Nat) (l : List α) (f2 : Nat), l.length ≤ f1 → l.length ≤ f2 →
      batchifyAux n f1 l = batchifyAux n f2 l := by
  intro f1
  induction f1 with
  | zero =>
    intro l f2 h1 _
    have : l = [] := List.length_eq_zero.mp (Nat.le_zero.mp h1)
    subst this
    rw [batchifyAux_nil, batchifyAux_nil]
  | succ f1 ih =>
    intro l f2 h1 h2
    match l with
    | [] => rw [batchifyAux_nil, batchifyAux_nil]
    | x :: xs =>
      match f2 with
      | f2 + 1 =>
        show ((x :: xs).take n :: batchifyAux n f1 ((x :: xs).drop n))
            = ((x :: xs).take n :: batchifyAux n f2 ((x :: xs).drop n))
        have hd : ((x :: xs).drop n).length = xs.length + 1 - n := by
          simp [List.length_drop]
        have hlen : xs.length + 1 ≤ f1 + 1 := h1
        have hlen2 : xs.length + 1 ≤ f2 + 1 := h2
        rw [ih ((x :: xs).drop n) f2 (by omega) (by omega)]

theorem batchify_cons (n : Nat) (hn : 0 < n) (x : α) (xs : List α) :
    batchify (x :: xs) n = (x :: xs).take n :: batchify ((x :: xs).drop n) n := by
  show batchifyAux n (xs.length + 1) (x :: xs) = _
  show ((x :: xs).take n :: batchifyAux n xs.length ((x :: xs).drop n)) = _
  rw [batchifyAux_congr n hn xs.length ((x :: xs).drop n) ((x :: xs).drop n).length
    (by simp [List.length_drop]; omega) (le_refl _)]
  rfl

theorem batchify_flatten (n : Nat) (hn : 0 < n) (arr : List α) :
    (batchify arr n).flatten = arr := by
  have main : ∀ (bound : Nat) (l : List α), l.length ≤ bound → (batchify l n).flatten = l := by
    intro bound
    induction bound with
    | zero =>
      intro l h
      have : l = [] := List.length_eq_zero.mp (Nat.le_zero.mp h)
      subst this
      rfl
    | succ bound ih =>
      intro l h
      match l with
      | [] => rfl
      | x :: xs =>
        have hh : xs.length + 1 ≤ bound + 1 := by simpa using h
        rw [batchify_cons n hn, List.flatten_cons,
          ih ((x :: xs).drop n) (by simp [List.length_drop]; omega)]
        exact List.take_append_drop n (x :: xs)
  exact main arr.length arr (le_refl _)

theorem batchify_batch_le (n : Nat) (arr : List α) :
    ∀ b ∈ batchify arr n, b.length ≤ n := by
  have main : ∀ (fuel : Nat) (l : List α), ∀ b ∈ batchifyAux n fuel l, b.length ≤ n := by
    intro fuel
    induction fuel with
    | zero => intro l b hb; simp [batchifyAux] at hb
    | succ fuel ih =>
      intro l b hb
      match l with
      | [] => simp [batchifyAux] at hb
      | x :: xs =>
        simp only [batchifyAux, List.mem_cons] at hb
        rcases hb with h | h
        · subst h; simp [List.length_take]
        · exact ih _ b h
  exact main arr.length arr

theorem getUsersByIds_eq_map (st : KV) (ids : List String) :
    getUsersByIds st ids = ids.map (fun id => kvGet st ["users", id]) := by
  unfold getUsersByIds
  simp only [kvGetMany, List.map_map]
  rw [← List.map_flatten, batchify_flatten 10 (by norm_num)]
  simp [List.map_map, kvGet, Function.comp]

/-- C10: `getUsersByIds(ids)` always returns an array with exactly one
element per input id, in the same order as the input ids (concatenating
batches of at most 10 in order); an id with no stored user contributes
`null` at its position (despite the declared `User[]` return type) rather
than being skipped or raising an error. -/
theorem getUsersByIds_aligned (st : KV) (ids : List String) :
    (getUsersByIds st ids).length = ids.length ∧
    (∀ k : Nat, (getUsersByIds st ids)[k]? =
      (ids[k]?).map (fun id => kvGet st ["users", id])) ∧
    (∀ b ∈ batchify (ids.map (fun id => ["users", id])) 10, b.length ≤ 10) := by
  refine ⟨?_, ?_, ?_⟩
  · rw [getUsersByIds_eq_map]; exact List.length_map _ _
  · intro k
    rw [getUsersByIds_eq_map, List.getElem?_map]
  · exact batchify_batch_le 10 _

/-- Witness for C10: concrete batch membership discharging the
membership hypothesis of the third conjunct. -/
theorem getUsersByIds_aligned_witness :
    (([["users", "a"], ["users", "b"]] : List Key) ∈
      batchify ((["a", "b"] : List String).map (fun id => ["users", id])) 10) ∧
    ([["users", "a"], ["users", "b"]] : List Key).length ≤ 10 :=
  ⟨by decide,
   (getUsersByIds_aligned kv0 ["a", "b"]).2.2 [["users", "a"], ["users", "b"]] (by decide)⟩

/-! ## Comment creation: C2 -/

/-- C2 counterexample: on a store where the comments-by-user key is already
taken, the `createComment` transaction aborts — yet the operation still
returns the (unstored) comment to the caller, contradicting the claim that
a failed transaction returns without returning a comment. -/
theorem createComment_returns_comment_on_failed_commit :
    kvCommit stCommentTaken (createCommentOps icA "id1" 5) = none ∧
    createComment icA "id1" 5 stCommentTaken
      = (some (mkComment icA "id1" 5), stCommentTaken) := by
  constructor
  · decide
  · decide

/-- C2 amended: `createComment` commits both denormalized copies in one
atomic transaction guarded by absence-checks on both keys; if the
transaction fails it returns immediately without retrying, leaving the
store unchanged, but it still returns the freshly built comment to the
caller (the comment is simply not stored). -/
theorem createComment_commit_behavior (ic : InitComment) (id : String) (now : Nat) (st : KV) :
    (createComment ic id now st).1 = some (mkComment ic id now) ∧
    (∀ st', kvCommit st (createCommentOps ic id now) = some st' →
      (createComment ic id now st).2 = st' ∧
      kvGet st' (commentUserKey ic id) = some (.comment (mkComment ic id now)) ∧
      kvGet st' (commentItemKey ic id) = some (.comment (mkComment ic id now))) ∧
    (kvCommit st (createCommentOps ic id now) = none →
      (createComment ic id now st).2 = st) := by
  refine ⟨?_, ?_, ?_⟩
  · unfold createComment
    cases kvCommit st (createCommentOps ic id now) <;> rfl
  · intro st' h
    have h2 : st' = applyOps st (createCommentOps ic id now) := by
      unfold kvCommit at h
      split_ifs at h with hcp
      exact (Option.some.inj h).symm
    constructor
    · simp [createComment, h]
    · subst h2
      constructor <;>
        simp [createCommentOps, applyOps, kvGet, alGet, commentUserKey, commentItemKey]
  · intro h
    simp [createComment, h]

/-- Witness for C2's amended theorem: a successful commit on the empty
store, with both copies stored and returned. -/
theorem createComment_commit_behavior_witness :
    kvCommit kv0 (createCommentOps icA "id1" 5) = some (createComment icA "id1" 5 kv0).2 ∧
    ((createComment icA "id1" 5 kv0).2 = (createComment icA "id1" 5 kv0).2 ∧
      kvGet (createComment icA "id1" 5 kv0).2 (commentUserKey icA "id1")
        = some (.comment (mkComment icA "id1" 5)) ∧
      kvGet (createComment icA "id1" 5 kv0).2 (commentItemKey icA "id1")
        = some (.comment (mkComment icA "id1" 5))) :=
  ⟨by decide, (createComment_commit_behavior icA "id1" 5 kv0).2.1 _ (by decide)⟩

/-! ## Item creation telemetry: C4 -/

/-- C4 counterexample: with the KV transaction succeeding, a transport
error raised by the outbound POST propagates out of `createItem` — the
caller gets an exception, not the created item, even though the creation
remains committed in the store. -/
theorem createItem_raises_on_transport_error :
    (createItem iiA "i9" 7 (.transportError "connection reset") kv0).1
      = .error "connection reset" ∧
    kvGet (createItem iiA "i9" 7 (.transportError "connection reset") kv0).2 (itemKey "i9")
      = some (.item (mkItem iiA "i9" 7)) := by
  constructor
  · decide
  · decide

/-- C4 amended: when the `createItem` transaction succeeds, a non-2xx
telemetry response is only logged — never raised, the committed creation
untouched, and the created item is still returned; but a transport error
raised by the outbound POST propagates to the caller (the already-committed
creation is still not undone — the item stays stored). -/
theorem createItem_telemetry_behavior (ii : InitItem) (id : String) (now : Nat) (st : KV)
    (hab : alGet st.entries (itemKey id) = none) :
    (∀ status jsonOk, createItem ii id now (.response false status jsonOk) st
      = (.ok (some (mkItem ii id now)),
         ⟨(itemKey id, .item (mkItem ii id now), st.next) :: st.entries, st.next + 1⟩)) ∧
    (∀ msg, createItem ii id now (.transportError msg) st
      = (.error msg,
         ⟨(itemKey id, .item (mkItem ii id now), st.next) :: st.entries, st.next + 1⟩)) := by
  have hcommit : kvCommit st
      [.check (itemKey id) none, .setv (itemKey id) (.item (mkItem ii id now))]
      = some ⟨(itemKey id, .item (mkItem ii id now), st.next) :: st.entries, st.next + 1⟩ := by
    simp [kvCommit, checksPass, kvVs, hab, applyOps]
  constructor
  · intro status jsonOk
    simp [createItem, hcommit]
  · intro msg
    simp [createItem, hcommit]

/-- Witness for C4's amended theorem: both telemetry outcomes on the empty
store. -/
theorem createItem_telemetry_behavior_witness :
    createItem iiA "i9" 7 (.response false 404 true) kv0
      = (.ok (some (mkItem iiA "i9" 7)),
         ⟨(itemKey "i9", .item (mkItem iiA "i9" 7), kv0.next) :: kv0.entries, kv0.next + 1⟩) ∧
    createItem iiA "i9" 7 (.transportError "boom") kv0
      = (.error "boom",
         ⟨(itemKey "i9", .item (mkItem iiA "i9" 7), kv0.next) :: kv0.entries, kv0.next + 1⟩) :=
  ⟨(createItem_telemetry_behavior iiA "i9" 7 kv0 (by decide)).1 404 true,
   (createItem_telemetry_behavior iiA "i9" 7 kv0 (by decide)).2 "boom"⟩

/-! ## The zero-vote score: C5 -/

/-- C5 counterexample: at vote count 0 the function returns the JavaScript
number `0.5`, which is not the fractional-digit string `"5"` followed by
seventeen `"0"` characters (nor any string). -/
theorem computeZeroToOneScore_zero_is_number :
    computeZeroToOneScore 0 0 0 = .num (1 / 2) ∧
    computeZeroToOneScore 0 0 0 ≠ .str "500000000000000000" := by
  constructor
  · rfl
  · decide

/-- C5 amended: for a zero vote count, `computeZeroToOneScore` returns the
plain number 0.5 — the fixed midpoint value, but as a number, not the
midpoint's 18-digit fractional-digit string — for every timestamp and
every value of the blend. -/
theorem computeZeroToOneScore_zero (t : ℤ) (val : ℚ) :
    computeZeroToOneScore 0 t val = .num (1 / 2) := rfl

/-! ## Vote creation: C1 -/

theorem createVoteIter_ok (userId itemId : String) (stR stC stN : KV) (it : Item) (vs : Nat)
    (halg : alGet stR.entries (itemKey itemId) = some (.item it, vs))
    (h : createVoteIter userId itemId stR stC = .ok (some stN)) :
    alGet stC.entries (voteKey userId itemId) = none ∧
    kvVs stC (itemKey itemId) = some vs ∧
    kvGet stN (itemKey itemId) = some (.item { it with score := it.score + 1 }) ∧
    kvGet stN (voteKey userId itemId) = some .undef := by
  simp only [createVoteIter, halg, Except.ok.injEq] at h
  rw [kvCommit] at h
  split_ifs at h with hcp
  have hstN : stN = applyOps stC
      [.check (voteKey userId itemId) none,
       .check (itemKey itemId) (some vs),
       .setv (itemKey itemId) (incScore (.item it)),
       .setv (voteKey userId itemId) .undef] := (Option.some.inj h).symm
  simp only [checksPass, Bool.and_eq_true, decide_eq_true_eq] at hcp
  obtain ⟨hvote, hitem, -⟩ := hcp
  refine ⟨?_, hitem, ?_, ?_⟩
  · exact Option.map_eq_none'.mp hvote
  · subst hstN
    simp [applyOps, kvGet, alGet, itemKey, voteKey, incScore]
  · subst hstN
    simp [applyOps, kvGet, alGet, itemKey, voteKey]

theorem createVoteIter_error (userId itemId : String) (stR stC : KV) (e : String)
    (h : createVoteIter userId itemId stR stC = .error e) :
    e = "Item does not exist" ∧ alGet stR.entries (itemKey itemId) = none := by
  cases halg : alGet stR.entries (itemKey itemId) with
  | none =>
    simp only [createVoteIter, halg, Except.error.injEq] at h
    exact ⟨h.symm, rfl⟩
  | some v =>
    obtain ⟨v, vs⟩ := v
    simp [createVoteIter, halg] at h

/-- C1: if `createVote(userId, itemId)` returns normally, its final
committed atomic transaction checked that the vote-marker key
`votes_by_users/{userId}/{itemId}` was absent and that the item's
versionstamp was unchanged since the read of that same iteration, wrote
the marker, and incremented the item's score by exactly one relative to
the value read in that iteration; and if the loop raises, the error is the
fatal "Item does not exist", thrown on an iteration that read no item, with
nothing committed (the loop result carries no state). -/
theorem createVote_final_commit (userId itemId : String) (pairs : List (KV × KV)) (st' : KV)
    (hty : ∀ p ∈ pairs, isItemEntry (alGet p.1.entries (itemKey itemId)) = true) :
    (createVote userId itemId pairs = .ok (some st') →
      ∃ p ∈ pairs, ∃ it vs,
        alGet p.1.entries (itemKey itemId) = some (.item it, vs) ∧
        alGet p.2.entries (voteKey userId itemId) = none ∧
        kvVs p.2 (itemKey itemId) = some vs ∧
        kvGet st' (itemKey itemId) = some (.item { it with score := it.score + 1 }) ∧
        kvGet st' (voteKey userId itemId) = some .undef) ∧
    (∀ e, createVote userId itemId pairs = .error e →
      e = "Item does not exist" ∧
      ∃ p ∈ pairs, alGet p.1.entries (itemKey itemId) = none) := by
  induction pairs with
  | nil =>
    constructor
    · intro h; simp [createVote] at h
    · intro e h; simp [createVote] at h
  | cons p rest ih =>
    obtain ⟨stR, stC⟩ := p
    have hty0 : isItemEntry (alGet stR.entries (itemKey itemId)) = true :=
      hty _ (List.mem_cons_self _ _)
    have htyrest : ∀ q ∈ rest, isItemEntry (alGet q.1.entries (itemKey itemId)) = true :=
      fun q hq => hty q (List.mem_cons_of_mem _ hq)
    cases hiter : createVoteIter userId itemId stR stC with
    | error e0 =>
      obtain ⟨he0, halg⟩ := createVoteIter_error userId itemId stR stC e0 hiter
      constructor
      · intro h
        rw [createVote, hiter] at h
        exact absurd h (by simp)
      · intro e h
        rw [createVote, hiter] at h
        cases h
        exact ⟨he0, ⟨(stR, stC), List.mem_cons_self _ _, halg⟩⟩
    | ok o =>
      cases o with
      | none =>
        have hloop : createVote userId itemId ((stR, stC) :: rest)
            = createVote userId itemId rest := by
          rw [createVote, hiter]
        constructor
        · intro h
          rw [hloop] at h
          obtain ⟨p, hp, rest'⟩ := ((ih htyrest).1 h)
          exact ⟨p, List.mem_cons_of_mem _ hp, rest'⟩
        · intro e h
          rw [hloop] at h
          obtain ⟨he, p, hp, halg⟩ := (ih htyrest).2 e h
          exact ⟨he, p, List.mem_cons_of_mem _ hp, halg⟩
      | some stN =>
        have hloop : createVote userId itemId ((stR, stC) :: rest) = .ok (some stN) := by
          rw [createVote, hiter]
        constructor
        · intro h
          rw [hloop] at h
          have hstN : stN = st' := by
            cases h
            rfl
          subst hstN
          cases halg : alGet stR.entries (itemKey itemId) with
          | none => simp [createVoteIter, halg] at hiter
          | some v =>
            obtain ⟨v, vs⟩ := v
            cases v with
            | item it =>
              obtain ⟨h1, h2, h3, h4⟩ :=
                createVoteIter_ok userId itemId stR stC stN it vs halg hiter
              exact ⟨(stR, stC), List.mem_cons_self _ _, it, vs, halg, h1, h2, h3, h4⟩
            | comment c => rw [halg] at hty0; simp [isItemEntry] at hty0
            | user u => rw [halg] at hty0; simp [isItemEntry] at hty0
            | undef => rw [halg] at hty0; simp [isItemEntry] at hty0
        · intro e h
          rw [hloop] at h
          exact absurd h (by simp)

/-- Witness for C1: a committed vote on a one-item store, with the
transaction's checks and effects evaluated concretely. -/
theorem createVote_final_commit_witness :
    (∀ p ∈ [(stItem, stItem)], isItemEntry (alGet p.1.entries (itemKey "i1")) = true) ∧
    createVote "u1" "i1" [(stItem, stItem)]
      = .ok (some (resultState (createVote "u1" "i1" [(stItem, stItem)]))) ∧
    (∃ p ∈ [(stItem, stItem)], ∃ it vs,
      alGet p.1.entries (itemKey "i1") = some (.item it, vs) ∧
      alGet p.2.entries (voteKey "u1" "i1") = none ∧
      kvVs p.2 (itemKey "i1") = some vs ∧
      kvGet (resultState (createVote "u1" "i1" [(stItem, stItem)])) (itemKey "i1")
        = some (.item { it with score := it.score + 1 }) ∧
      kvGet (resultState (createVote "u1" "i1" [(stItem, stItem)])) (voteKey "u1" "i1")
        = some .undef) :=
  ⟨by decide, by decide,
   (createVote_final_commit "u1" "i1" [(stItem, stItem)]
     (resultState (createVote "u1" "i1" [(stItem, stItem)])) (by decide)).1 (by decide)⟩

/-! ## Vote deletion: C9 -/

/-- C9: `deleteVote(userId, itemId)` with the vote-marker key absent is an
idempotent no-op: it returns normally with the store unchanged (the final
state is literally the commit-time state — no transaction is attempted, so
the item's score is untouched); and when the item itself is missing it
fails fatally — a check made before the marker check, regardless of the
marker's state. -/
theorem deleteVote_missing_marker_noop (userId itemId : String) (stR stC : KV)
    (rest : List (KV × KV)) :
    ((alGet stR.entries (itemKey itemId)).isSome = true →
      alGet stR.entries (voteKey userId itemId) = none →
      deleteVote userId itemId ((stR, stC) :: rest) = .ok (some stC)) ∧
    (alGet stR.entries (itemKey itemId) = none →
      deleteVote userId itemId ((stR, stC) :: rest) = .error "Item does not exist") := by
  constructor
  · intro h1 h2
    obtain ⟨x, hx⟩ := Option.isSome_iff_exists.mp h1
    rw [deleteVote]
    rw [show deleteVoteIter userId itemId stR stC = .ok (some stC) by
      obtain ⟨v, vs⟩ := x
      simp [deleteVoteIter, hx, h2]]
  · intro h
    rw [deleteVote]
    rw [show deleteVoteIter userId itemId stR stC = .error "Item does not exist" by
      simp [deleteVoteIter, h]]

/-- Witness for C9: the no-op on a one-item store with no marker, and the
fatal error on an empty store. -/
theorem deleteVote_missing_marker_noop_witness :
    ((alGet stItem.entries (itemKey "i1")).isSome = true ∧
      alGet stItem.entries (voteKey "u9" "i1") = none ∧
      deleteVote "u9" "i1" [(stItem, stItem)] = .ok (some stItem)) ∧
    (alGet kv0.entries (itemKey "i1") = none ∧
      deleteVote "u9" "i1" [(kv0, kv0)] = .error "Item does not exist") :=
  ⟨⟨by decide, by decide,
    (deleteVote_missing_marker_noop "u9" "i1" stItem stItem []).1 (by decide) (by decide)⟩,
   ⟨by decide, (deleteVote_missing_marker_noop "u9" "i1" kv0 kv0 []).2 (by decide)⟩⟩

/-! ## User index consistency: C3 -/

/-- C3: `createUser` either atomically writes identical copies of the new
user (with `isSubscribed = false`) under all four index keys — guarded by
absence-checks on all four (on success, all four keys were previously
absent) — or fails hard with the store unchanged (no partial index); and
the four-way identity of the stored copies is re-established by every
successful `setUserSubscription` and `setUserSession` call (for the
updated record's four keys). -/
theorem createUser_four_way_identity :
    (∀ iu st u' st', createUser iu st = (.ok u', st') →
      u' = mkUser iu ∧ u'.isSubscribed = false ∧ fourIdentical st' u' ∧
      (∀ k ∈ userKeys (mkUser iu), alGet st.entries k = none)) ∧
    (∀ iu st, (createUser iu st).1 = .error () → (createUser iu st).2 = st) ∧
    (∀ user sub stR stC st', setUserSubscription user sub stR stC = (.ok (), st') →
      fourIdentical st' { user with isSubscribed := sub }) ∧
    (∀ user sid stR stC st', setUserSession user sid stR stC = (.ok (), st') →
      fourIdentical st' { user with sessionId := sid }) := by
  refine ⟨?_, ?_, ?_, ?_⟩
  · intro iu st u' st' h
    cases hc : kvCommit st (createUserOps iu) with
    | none => rw [createUser, hc] at h; simp at h
    | some stN =>
      rw [createUser, hc] at h
      dsimp only at h
      injection h with hu hstN
      injection hu with hu'
      have hu'' : u' = mkUser iu := hu'.symm
      have hcp : checksPass st (createUserOps iu) = true := by
        by_contra hcp
        rw [kvCommit, if_neg (by simpa using hcp)] at hc
        cases hc
      have happ : stN = applyOps st (createUserOps iu) := by
        rw [kvCommit, if_pos hcp] at hc
        exact (Option.some.inj hc).symm
      subst hu''
      subst hstN
      subst happ
      refine ⟨rfl, rfl, ?_, ?_⟩
      · intro k hk
        simp only [userKeys, List.mem_cons, List.not_mem_nil, or_false] at hk
        rcases hk with rfl | rfl | rfl | rfl <;>
          simp [createUserOps, applyOps, kvGet, alGet, mkUser]
      · simp only [checksPass, createUserOps, Bool.and_eq_true, decide_eq_true_eq] at hcp
        obtain ⟨h1, h2, h3, h4⟩ := hcp
        intro k hk
        simp only [userKeys, List.mem_cons, List.not_mem_nil, or_false] at hk
        rcases hk with rfl | rfl | rfl | rfl
        · exact Option.map_eq_none'.mp h1
        · exact Option.map_eq_none'.mp h2
        · exact Option.map_eq_none'.mp h3
        · exact Option.map_eq_none'.mp h4.1
  · intro iu st h
    cases hc : kvCommit st (createUserOps iu) with
    | none => rw [createUser, hc]
    | some stN => rw [createUser, hc] at h; simp at h
  · intro user sub stR stC st' h
    cases h1 : alGet stR.entries ["users", user.id] with
    | none => simp [setUserSubscription, h1] at h
    | some e1 =>
    obtain ⟨v1, vs1⟩ := e1
    cases h2 : alGet stR.entries ["users_by_login", user.login] with
    | none => simp [setUserSubscription, h1, h2] at h
    | some e2 =>
    obtain ⟨v2, vs2⟩ := e2
    cases h3 : alGet stR.entries ["users_by_session", user.sessionId] with
    | none => simp [setUserSubscription, h1, h2, h3] at h
    | some e3 =>
    obtain ⟨v3, vs3⟩ := e3
    cases h4 : alGet stR.entries ["users_by_stripe_customer", user.stripeCustomerId] with
    | none => simp [setUserSubscription, h1, h2, h3, h4] at h
    | some e4 =>
    obtain ⟨v4, vs4⟩ := e4
    rw [setUserSubscription] at h
    rw [h1, h2, h3, h4] at h
    dsimp only at h
    split at h
    · rename_i stN hc
      injection h with hres hstN
      cases hstN
      rw [kvCommit] at hc
      split_ifs at hc
      rw [← Option.some.inj hc]
      intro k hk
      simp only [userKeys, List.mem_cons, List.not_mem_nil, or_false] at hk
      rcases hk with rfl | rfl | rfl | rfl <;>
        simp [applyOps, kvGet, alGet]
    · simp at h
  · intro user sid stR stC st' h
    cases h1 : alGet stR.entries ["users", user.id] with
    | none => simp [setUserSession, h1] at h
    | some e1 =>
    obtain ⟨v1, vs1⟩ := e1
    cases h2 : alGet stR.entries ["users_by_login", user.login] with
    | none => simp [setUserSession, h1, h2] at h
    | some e2 =>
    obtain ⟨v2, vs2⟩ := e2
    cases h4 : alGet stR.entries ["users_by_stripe_customer", user.stripeCustomerId] with
    | none => simp [setUserSession, h1, h2, h4] at h
    | some e4 =>
    obtain ⟨v4, vs4⟩ := e4
    rw [setUserSession] at h
    rw [h1, h2, h4] at h
    dsimp only at h
    split at h
    · rename_i stN hc
      injection h with hres hstN
      cases hstN
      rw [kvCommit] at hc
      split_ifs at hc
      rw [← Option.some.inj hc]
      intro k hk
      simp only [userKeys, List.mem_cons, List.not_mem_nil, or_false] at hk
      rcases hk with rfl | rfl | rfl | rfl <;>
        simp [applyOps, kvGet, alGet]
    · simp at h

/-- Witness for C3: a concrete user creation on the empty store, a failed
re-creation on the populated store, and a subscription flip and session
rotation on it. -/
theorem createUser_four_way_identity_witness :
    (mkUser iuA = mkUser iuA ∧ (mkUser iuA).isSubscribed = false ∧
      fourIdentical (createUser iuA kv0).2 (mkUser iuA) ∧
      (∀ k ∈ userKeys (mkUser iuA), alGet kv0.entries k = none)) ∧
    ((createUser iuA (createUser iuA kv0).2).2 = (createUser iuA kv0).2) ∧
    fourIdentical
      (setUserSubscription (mkUser iuA) true (createUser iuA kv0).2 (createUser iuA kv0).2).2
      { mkUser iuA with isSubscribed := true } ∧
    fourIdentical
      (setUserSession (mkUser iuA) "sess2" (createUser iuA kv0).2 (createUser iuA kv0).2).2
      { mkUser iuA with sessionId := "sess2" } :=
  ⟨createUser_four_way_identity.1 iuA kv0 (mkUser iuA) (createUser iuA kv0).2 (by decide),
   createUser_four_way_identity.2.1 iuA (createUser iuA kv0).2 (by decide),
   createUser_four_way_identity.2.2.1 (mkUser iuA) true (createUser iuA kv0).2
     (createUser iuA kv0).2
     (setUserSubscription (mkUser iuA) true (createUser iuA kv0).2 (createUser iuA kv0).2).2
     (by decide),
   createUser_four_way_identity.2.2.2 (mkUser iuA) "sess2" (createUser iuA kv0).2
     (createUser iuA kv0).2
     (setUserSession (mkUser iuA) "sess2" (createUser iuA kv0).2 (createUser iuA kv0).2).2
     (by decide)⟩

/-! ## Lemmas: decimal digit strings -/

theorem digitChar_lt_iff : ∀ a : Nat, a < 10 → ∀ b : Nat, b < 10 →
    (digitChar a < digitChar b ↔ a < b) := by decide

theorem digitChar_inj : ∀ a : Nat, a < 10 → ∀ b : Nat, b < 10 →
    (digitChar a = digitChar b ↔ a = b) := by decide

theorem block_lt {B q1 r1 q2 r2 : Nat} (hr1 : r1 < B) (h : q1 < q2) :
    B * q1 + r1 < B * q2 + r2 := by
  calc B * q1 + r1 < B * q1 + B := by omega
  _ = B * (q1 + 1) := by ring
  _ ≤ B * q2 := Nat.mul_le_mul_left _ h
  _ ≤ B * q2 + r2 := Nat.le_add_right _ _

theorem block_lt_iff {B q1 r1 q2 r2 : Nat} (hr1 : r1 < B) (hr2 : r2 < B) :
    B * q1 + r1 < B * q2 + r2 ↔ q1 < q2 ∨ (q1 = q2 ∧ r1 < r2) := by
  constructor
  · intro h
    rcases Nat.lt_trichotomy q1 q2 with hq | hq | hq
    · exact Or.inl hq
    · subst hq
      exact Or.inr ⟨rfl, by omega⟩
    · have hcontra := @block_lt B q2 r2 q1 r1 hr2 hq
      omega
  · rintro (hq | ⟨rfl, hr⟩)
    · exact block_lt hr1 hq
    · omega

theorem mod_pow_div_digit (m j k : Nat) (h : j < k) :
    m % 10 ^ k / 10 ^ j % 10 = m / 10 ^ j % 10 := by
  have hk : 10 ^ k = 10 ^ j * 10 ^ (k - j) := by
    rw [← pow_add]
    congr 1
    omega
  rw [hk, Nat.mod_mul_right_div_self]
  exact Nat.mod_mod_of_dvd _ (dvd_pow_self 10 (by omega))

theorem padDigits_succ (k m : Nat) :
    padDigits (k + 1) m = digitChar (m / 10 ^ k % 10) :: padDigits k (m % 10 ^ k) := by
  unfold padDigits
  rw [List.range_succ_eq_map, List.map_cons, List.map_map]
  congr 1
  apply List.map_congr_left
  intro idx hidx
  have hidx' : idx < k := List.mem_range.mp hidx
  simp only [Function.comp]
  congr 1
  have he : k + 1 - 1 - (idx + 1) = k - 1 - idx := by omega
  rw [show Nat.succ idx = idx + 1 from rfl, he]
  exact (mod_pow_div_digit m (k - 1 - idx) k (by omega)).symm

theorem padDigits_length (k m : Nat) : (padDigits k m).length = k := by
  simp [padDigits]

theorem padDigits_lex_iff : ∀ (k m1 m2 : Nat), m1 < 10 ^ k → m2 < 10 ^ k →
    (List.Lex (· < ·) (padDigits k m1) (padDigits k m2) ↔ m1 < m2) := by
  intro k
  induction k with
  | zero =>
    intro m1 m2 h1 h2
    have hm1 : m1 = 0 := by simpa using Nat.lt_one_iff.mp (by simpa using h1)
    have hm2 : m2 = 0 := by simpa using Nat.lt_one_iff.mp (by simpa using h2)
    subst hm1
    subst hm2
    simp only [padDigits, List.range_zero, List.map_nil]
    exact iff_of_false (List.Lex.not_nil_right _ _) (by omega)
  | succ k ih =>
    intro m1 m2 h1 h2
    have hpos : 0 < 10 ^ k := Nat.pos_pow_of_pos k (by norm_num)
    have hq1 : m1 / 10 ^ k < 10 := by
      rw [Nat.div_lt_iff_lt_mul hpos]
      calc m1 < 10 ^ (k + 1) := h1
      _ = 10 * 10 ^ k := by ring
    have hq2 : m2 / 10 ^ k < 10 := by
      rw [Nat.div_lt_iff_lt_mul hpos]
      calc m2 < 10 ^ (k + 1) := h2
      _ = 10 * 10 ^ k := by ring
    have hr1 : m1 % 10 ^ k < 10 ^ k := Nat.mod_lt _ hpos
    have hr2 : m2 % 10 ^ k < 10 ^ k := Nat.mod_lt _ hpos
    have e1 : 10 ^ k * (m1 / 10 ^ k) + m1 % 10 ^ k = m1 := Nat.div_add_mod m1 (10 ^ k)
    have e2 : 10 ^ k * (m2 / 10 ^ k) + m2 % 10 ^ k = m2 := Nat.div_add_mod m2 (10 ^ k)
    rw [padDigits_succ, padDigits_succ, Nat.mod_eq_of_lt hq1, Nat.mod_eq_of_lt hq2]
    have hiff := @block_lt_iff (10 ^ k) (m1 / 10 ^ k) (m1 % 10 ^ k)
      (m2 / 10 ^ k) (m2 % 10 ^ k) hr1 hr2
    rw [e1, e2] at hiff
    rw [hiff]
    constructor
    · intro hlex
      generalize hc1 : digitChar (m1 / 10 ^ k) = c1 at hlex
      generalize hc2 : digitChar (m2 / 10 ^ k) = c2 at hlex
      cases hlex with
      | cons htail =>
        have hq : m1 / 10 ^ k = m2 / 10 ^ k :=
          (digitChar_inj _ hq1 _ hq2).mp (hc1.trans hc2.symm)
        exact Or.inr ⟨hq, (ih _ _ hr1 hr2).mp htail⟩
      | rel hhead =>
        rw [← hc1, ← hc2] at hhead
        exact Or.inl ((digitChar_lt_iff _ hq1 _ hq2).mp hhead)
    · rintro (hq | ⟨hq, hr⟩)
      · exact List.Lex.rel ((digitChar_lt_iff _ hq1 _ hq2).mpr hq)
      · rw [hq]
        exact List.Lex.cons ((ih _ _ hr1 hr2).mpr hr)

theorem padDigits_le_iff (k m1 m2 : Nat) (h1 : m1 < 10 ^ k) (h2 : m2 < 10 ^ k) :
    (String.mk (padDigits k m1) ≤ String.mk (padDigits k m2)) ↔ m1 ≤ m2 := by
  rw [String.le_iff_toList_le]
  show padDigits k m1 ≤ padDigits k m2 ↔ m1 ≤ m2
  constructor
  · intro h
    by_contra hm
    push_neg at hm
    have hlex : List.Lex (· < ·) (padDigits k m2) (padDigits k m1) :=
      (padDigits_lex_iff k m2 m1 h2 h1).mpr hm
    have : padDigits k m2 < padDigits k m1 := hlex
    exact absurd this (not_lt.mpr h)
  · intro h
    by_contra hlt
    push_neg at hlt
    have hlex : List.Lex (· < ·) (padDigits k m2) (padDigits k m1) := hlt
    have := (padDigits_lex_iff k m2 m1 h2 h1).mp hlex
    omega

/-! ## Lemmas: clamping, rounding and slicing -/

theorem clampQ_nonneg (v : ℚ) : 0 ≤ clampQ v :=
  le_min (by norm_num) (le_trans (by norm_num) (le_max_left _ _))

theorem clampQ_le_one (v : ℚ) : clampQ v ≤ 1 := min_le_left _ _

theorem clampQ_eval (v : ℚ) (h1 : 1 / 10 ≤ v) (h2 : v ≤ 1) : clampQ v = v := by
  rw [clampQ, max_eq_right h1, min_eq_right h2]

theorem clampQ_of_one_le (v : ℚ) (h : 1 ≤ v) : clampQ v = 1 := by
  rw [clampQ, min_eq_left]
  exact le_trans h (le_max_right _ _)

theorem roundN_mono {b1 b2 : ℚ} (h : b1 ≤ b2) : roundN b1 ≤ roundN b2 := by
  apply Int.toNat_le_toNat
  apply Int.floor_le_floor
  have hm := mul_le_mul_of_nonneg_right h (by positivity : (0:ℚ) ≤ 10 ^ 18)
  linarith

theorem roundN_one : roundN 1 = 10 ^ 18 := by
  rw [roundN]
  norm_num
  rfl

theorem roundN_half : roundN (1 / 2) = 500000000000000000 := by
  rw [roundN]
  norm_num
  rfl

theorem roundN_le (b : ℚ) (h : b ≤ 1) : roundN b ≤ 10 ^ 18 := by
  have h1 : roundN b ≤ roundN 1 := roundN_mono h
  have h2 : roundN 1 = 10 ^ 18 := roundN_one
  omega

theorem toFixed18_data (b : ℚ) :
    (toFixed18 b).data
      = (Nat.repr (roundN b / 10 ^ 18)).data ++ '.' :: padDigits 18 (roundN b % 10 ^ 18) := by
  rw [toFixed18, String.data_append, String.data_append, List.append_assoc]
  rfl

theorem take_padDigits (j k m : Nat) (hj : j ≤ k) :
    (padDigits k m).take j = padDigits j (m / 10 ^ (k - j)) := by
  unfold padDigits
  rw [← List.map_take, List.take_range, min_eq_left hj]
  apply List.map_congr_left
  intro idx hidx
  have hidx' : idx < j := List.mem_range.mp hidx
  congr 1
  rw [Nat.div_div_eq_div_mul, ← pow_add]
  have he : k - j + (j - 1 - idx) = k - 1 - idx := by omega
  rw [he]

theorem padDigits_pow_eq_zero (j i : Nat) (hij : j ≤ i) :
    padDigits j (10 ^ i) = padDigits j 0 := by
  unfold padDigits
  apply List.map_congr_left
  intro idx hidx
  have hidx' : idx < j := List.mem_range.mp hidx
  congr 1
  rw [Nat.zero_div, Nat.zero_mod]
  rw [Nat.pow_div (by omega) (by norm_num)]
  have he : i - (j - 1 - idx) = (i - (j - 1 - idx) - 1) + 1 := by omega
  rw [he, pow_succ, Nat.mul_mod_left]

theorem jsSlice_toFixed18 (b : ℚ) (hb : b ≤ 1) :
    jsSlice (toFixed18 b) 2 18 = String.mk (padDigits 16 (roundN b / 100)) := by
  rcases Nat.lt_or_ge (roundN b) (10 ^ 18) with hlt | hge
  · have hdiv : roundN b / 10 ^ 18 = 0 := Nat.div_eq_of_lt hlt
    have hmod : roundN b % 10 ^ 18 = roundN b := Nat.mod_eq_of_lt hlt
    rw [jsSlice, toFixed18_data, hdiv, hmod]
    show String.mk ((padDigits 18 (roundN b)).take 16) = String.mk (padDigits 16 (roundN b / 100))
    rw [take_padDigits 16 18 (roundN b) (by omega)]
    norm_num
  · have heq : roundN b = 10 ^ 18 := le_antisymm (roundN_le b hb) hge
    rw [jsSlice, toFixed18_data, heq]
    rw [Nat.div_self (show 0 < (10:ℕ) ^ 18 by norm_num), Nat.mod_self]
    show String.mk ((padDigits 18 0).take 16) = String.mk (padDigits 16 (10 ^ 18 / 100))
    rw [take_padDigits 16 18 0 (by omega), Nat.zero_div]
    have h100 : (10:ℕ) ^ 18 / 100 = 10 ^ 16 := by norm_num
    rw [h100, padDigits_pow_eq_zero 16 16 (le_refl _)]

/-! ## The rendered score string: C6 and C7 -/

theorem score_render (s t : ℤ) (v : ℚ) (hs : s ≠ 0) :
    computeZeroToOneScore s t v
      = .str (String.mk (padDigits 16 (roundN (clampQ v) / 100))) := by
  rw [computeZeroToOneScore, if_neg hs, jsSlice_toFixed18 (clampQ v) (clampQ_le_one v)]

theorem score_half_eval : computeZeroToOneScore 1 0 (1 / 2) = .str "5000000000000000" := by
  rw [score_render 1 0 (1 / 2) (by decide),
    clampQ_eval (1 / 2) (by norm_num) (by norm_num), roundN_half]
  decide

theorem score_top_eval (s t : ℤ) (v : ℚ) (hs : s ≠ 0) (hv : 1 ≤ v) :
    computeZeroToOneScore s t v = .str (String.mk (List.replicate 16 '0')) := by
  rw [score_render s t v hs, clampQ_of_one_le v hv, roundN_one]
  have h100 : (10:ℕ) ^ 18 / 100 = 10 ^ 16 := by norm_num
  rw [h100, padDigits_pow_eq_zero 16 16 (le_refl _)]
  congr 2

theorem padDigits_zero_eq : padDigits 16 0 = List.replicate 16 '0' := by decide

theorem roundN_three_fifths : roundN (3 / 5) = 600000000000000000 := by
  rw [roundN]
  norm_num
  rfl

/-- C6 counterexample: at vote count 1 and blend value 1/2 the returned
string is the 16-character "5000000000000000": `slice(2, 18)` keeps only
the first 16 of the 18 rendered fractional digits, so the result does not
have length 18. -/
theorem computeZeroToOneScore_not_18_digits :
    computeZeroToOneScore 1 0 (1 / 2) = .str "5000000000000000" ∧
    ("5000000000000000" : String).length = 16 :=
  ⟨score_half_eval, by decide⟩

/-- C6 amended: for every nonzero vote count (and every timestamp/blend
value), the returned string has length 16, and equals the first 16
fractional digits of the 18-digit fixed-point rounding of the clamped
blend — the leading "0." is removed together with the last two of the 18
fractional digits. -/
theorem computeZeroToOneScore_sixteen_digits (score t : ℤ) (val : ℚ) (hs : score ≠ 0) :
    computeZeroToOneScore score t val
      = .str (String.mk (padDigits 16 (roundN (clampQ val) / 100))) ∧
    (String.mk (padDigits 16 (roundN (clampQ val) / 100))).length = 16 := by
  constructor
  · exact score_render score t val hs
  · show (padDigits 16 (roundN (clampQ val) / 100)).length = 16
    exact padDigits_length _ _

/-- Witness for C6's amended theorem at vote count 1 and blend 1/2. -/
theorem computeZeroToOneScore_sixteen_digits_witness :
    computeZeroToOneScore 1 0 (1 / 2)
      = .str (String.mk (padDigits 16 (roundN (clampQ (1 / 2)) / 100))) ∧
    (String.mk (padDigits 16 (roundN (clampQ (1 / 2)) / 100))).length = 16 :=
  computeZeroToOneScore_sixteen_digits 1 0 (1 / 2) (by decide)

/-- C7 counterexample: a blend clamped to exactly 1.0 encodes as sixteen
"0" characters, which sorts before the encoding "5000000000000000" of the
smaller clamped value 1/2 under plain string comparison: the boundary
value 1.0 does not sort last, and string order disagrees with the order of
the clamped numeric values at this pair. -/
theorem computeZeroToOneScore_top_sorts_first :
    computeZeroToOneScore 1 0 2 = .str "0000000000000000" ∧
    computeZeroToOneScore 1 0 (1 / 2) = .str "5000000000000000" ∧
    clampQ (1 / 2) < clampQ 2 ∧
    ("0000000000000000" : String) < "5000000000000000" := by
  refine ⟨?_, score_half_eval, ?_, ?_⟩
  · rw [score_top_eval 1 0 2 (by decide) (by norm_num)]
    congr 2
  · rw [clampQ_eval (1 / 2) (by norm_num) (by norm_num), clampQ_of_one_le 2 (by norm_num)]
    norm_num
  · rw [String.lt_iff_toList_lt]
    decide

/-- C7 amended: for nonzero vote counts, plain string comparison of the
returned encodings is monotone (non-strictly) in the clamped numeric value
as long as the 18-digit rounding of the larger value stays below 1 —
distinct values may still collapse to equal strings because only 16 of the
18 digits are kept; and a blend clamped to exactly 1.0 encodes as sixteen
"0" characters, an encoding that sorts first (it is ≤ every returned
encoding), not last. -/
theorem computeZeroToOneScore_string_order (s1 s2 t1 t2 : ℤ) (v1 v2 : ℚ)
    (hs1 : s1 ≠ 0) (hs2 : s2 ≠ 0) :
    (clampQ v1 ≤ clampQ v2 → roundN (clampQ v2) < 10 ^ 18 →
      ∃ a b : String, computeZeroToOneScore s1 t1 v1 = .str a ∧
        computeZeroToOneScore s2 t2 v2 = .str b ∧ a ≤ b) ∧
    (1 ≤ v1 → computeZeroToOneScore s1 t1 v1 = .str (String.mk (List.replicate 16 '0'))) ∧
    (∀ a : String, computeZeroToOneScore s2 t2 v2 = .str a →
      String.mk (List.replicate 16 '0') ≤ a) := by
  refine ⟨?_, ?_, ?_⟩
  · intro hle htop
    refine ⟨String.mk (padDigits 16 (roundN (clampQ v1) / 100)),
      String.mk (padDigits 16 (roundN (clampQ v2) / 100)),
      score_render s1 t1 v1 hs1, score_render s2 t2 v2 hs2, ?_⟩
    have hn : roundN (clampQ v1) ≤ roundN (clampQ v2) := roundN_mono hle
    have h2 : roundN (clampQ v2) / 100 < 10 ^ 16 := by
      rw [Nat.div_lt_iff_lt_mul (by norm_num)]
      exact lt_of_lt_of_le htop (by norm_num)
    have h1 : roundN (clampQ v1) / 100 < 10 ^ 16 :=
      lt_of_le_of_lt (Nat.div_le_div_right hn) h2
    exact (padDigits_le_iff 16 _ _ h1 h2).mpr (Nat.div_le_div_right hn)
  · intro hv1
    exact score_top_eval s1 t1 v1 hs1 hv1
  · intro a ha
    have hb := (score_render s2 t2 v2 hs2).symm.trans ha
    have ha' : a = String.mk (padDigits 16 (roundN (clampQ v2) / 100)) :=
      (JsValue.str.inj hb).symm
    subst ha'
    rw [← padDigits_zero_eq]
    have hub : roundN (clampQ v2) / 100 ≤ 10 ^ 16 := by
      have := roundN_le (clampQ v2) (clampQ_le_one v2)
      omega
    rcases Nat.lt_or_ge (roundN (clampQ v2) / 100) (10 ^ 16) with hlt | hge
    · exact (padDigits_le_iff 16 0 _ (by norm_num) hlt).mpr (Nat.zero_le _)
    · have heq : roundN (clampQ v2) / 100 = 10 ^ 16 := le_antisymm hub hge
      rw [heq, padDigits_pow_eq_zero 16 16 (le_refl _)]

/-- Witness for C7's amended theorem: monotone encodings at blends 1/2 and
3/5, the all-zero encoding at a blend clamped to 1.0, and that encoding
sorting no later than the encoding of 1/2. -/
theorem computeZeroToOneScore_string_order_witness :
    (∃ a b : String, computeZeroToOneScore 1 0 (1 / 2) = .str a ∧
      computeZeroToOneScore 1 0 (3 / 5) = .str b ∧ a ≤ b) ∧
    computeZeroToOneScore 1 0 2 = .str (String.mk (List.replicate 16 '0')) ∧
    String.mk (List.replicate 16 '0') ≤ "5000000000000000" :=
  ⟨(computeZeroToOneScore_string_order 1 1 0 0 (1 / 2) (3 / 5) (by decide) (by decide)).1
      (by rw [clampQ_eval (1 / 2) (by norm_num) (by norm_num),
              clampQ_eval (3 / 5) (by norm_num) (by norm_num)]; norm_num)
      (by rw [clampQ_eval (3 / 5) (by norm_num) (by norm_num), roundN_three_fifths]; norm_num),
   (computeZeroToOneScore_string_order 1 1 0 0 2 (1 / 2) (by decide) (by decide)).2.1
      (by norm_num),
   (computeZeroToOneScore_string_order 1 1 0 0 2 (1 / 2) (by decide) (by decide)).2.2
      "5000000000000000" score_half_eval⟩

/-! ## Lemmas: the numeric score -/

theorem sat_formula {L : ℝ} (hL : 0 < L) :
    (1 + 1 / (2 * L)) / (1 + 1 / (1 * L)) = 1 - 1 / (2 * L + 2) := by
  have h1 : (2 : ℝ) * L ≠ 0 := by positivity
  have h3 : (2 : ℝ) * L + 2 ≠ 0 := by positivity
  have h4 : (1 : ℝ) + 1 / (1 * L) ≠ 0 := by positivity
  field_simp
  ring

theorem log_ge_third {s : ℕ} (hs : 1 ≤ s) : 1 / 3 ≤ Real.log (1 + s) := by
  have h2 : (2 : ℝ) ≤ 1 + s := by
    have : (1 : ℝ) ≤ (s : ℝ) := by exact_mod_cast hs
    linarith
  calc (1:ℝ)/3 ≤ Real.log 2 := by
        have := Real.log_two_gt_d9
        linarith
  _ ≤ Real.log (1 + s) := Real.log_le_log (by norm_num) h2

theorem log_pos_of_one_le {s : ℕ} (hs : 1 ≤ s) : 0 < Real.log (1 + s) :=
  lt_of_lt_of_le (by norm_num) (log_ge_third hs)

theorem one_sub_inv_mono {L1 L2 : ℝ} (h0 : 0 < L1) (h : L1 ≤ L2) :
    1 - 1 / (2 * L1 + 2) ≤ 1 - 1 / (2 * L2 + 2) := by
  have h1 : 0 < 2 * L1 + 2 := by linarith
  have h2 : (2:ℝ) * L1 + 2 ≤ 2 * L2 + 2 := by linarith
  have := one_div_le_one_div_of_le h1 h2
  linarith

theorem blendVal_mono_score {s1 s2 : ℕ} (h1 : 1 ≤ s1) (hs : s1 ≤ s2) (days : ℝ) :
    blendVal s1 days ≤ blendVal s2 days := by
  unfold blendVal
  have hL1 : 0 < Real.log (1 + s1) := log_pos_of_one_le h1
  have hL2 : 0 < Real.log (1 + s2) := log_pos_of_one_le (le_trans h1 hs)
  have hLle : Real.log (1 + s1) ≤ Real.log (1 + s2) := by
    apply Real.log_le_log (by positivity)
    have : (s1:ℝ) ≤ s2 := by exact_mod_cast hs
    linarith
  rw [mul_div_assoc, mul_div_assoc, sat_formula hL1, sat_formula hL2]
  have := mul_le_mul_of_nonneg_left (one_sub_inv_mono hL1 hLle)
    (show (0:ℝ) ≤ 0.8 by norm_num)
  linarith

theorem blendVal_ge_half {s : ℕ} (hs : 1 ≤ s) (days : ℝ) : 0.5 ≤ blendVal s days := by
  unfold blendVal
  have hL : 0 < Real.log (1 + s) := log_pos_of_one_le hs
  have hL3 : 1 / 3 ≤ Real.log (1 + s) := log_ge_third hs
  rw [mul_div_assoc, sat_formula hL]
  have hd : (0:ℝ) ≤ 0.2 * (1 / (2 : ℝ) ^ Real.sqrt (Real.sqrt (1 + days))) := by positivity
  have hmono := one_sub_inv_mono (show (0:ℝ) < 1/3 by norm_num) hL3
  have h58 : (1:ℝ) - 1 / (2 * (1/3) + 2) = 5/8 := by norm_num
  rw [h58] at hmono
  have := mul_le_mul_of_nonneg_left hmono (show (0:ℝ) ≤ 0.8 by norm_num)
  linarith

theorem decay_mono {d1 d2 : ℝ} (h : d1 ≤ d2) :
    1 / (2:ℝ) ^ Real.sqrt (Real.sqrt (1 + d2)) ≤ 1 / (2:ℝ) ^ Real.sqrt (Real.sqrt (1 + d1)) := by
  have hmono : Real.sqrt (Real.sqrt (1 + d1)) ≤ Real.sqrt (Real.sqrt (1 + d2)) :=
    Real.sqrt_le_sqrt (Real.sqrt_le_sqrt (by linarith))
  have hp1 : (0:ℝ) < (2:ℝ) ^ Real.sqrt (Real.sqrt (1 + d1)) :=
    Real.rpow_pos_of_pos (by norm_num) _
  have hle : (2:ℝ) ^ Real.sqrt (Real.sqrt (1 + d1)) ≤ (2:ℝ) ^ Real.sqrt (Real.sqrt (1 + d2)) :=
    Real.rpow_le_rpow_of_exponent_le (by norm_num) hmono
  exact one_div_le_one_div_of_le hp1 hle

theorem blendVal_anti_days (s : ℕ) {d1 d2 : ℝ} (h : d1 ≤ d2) :
    blendVal s d2 ≤ blendVal s d1 := by
  unfold blendVal
  have hdec := decay_mono h
  have := mul_le_mul_of_nonneg_left hdec (show (0:ℝ) ≤ 0.2 by norm_num)
  linarith

theorem daysOf_anti (nowMs : ℝ) {ts1 ts2 : ℝ} (h : ts1 ≤ ts2) :
    daysOf nowMs ts2 ≤ daysOf nowMs ts1 := by
  unfold daysOf
  apply max_le_max (le_refl _)
  exact (div_le_div_right (by norm_num)).mpr (by linarith)

/-- C8: for every fixed pair of clock time and timestamp, the numeric score
of lines 441-444 is monotonically non-decreasing in the vote count over all
non-negative counts — including the step from the fixed 0.5 at count 0 to
the clamped blend at count 1; and for every fixed nonzero count it is
monotonically non-increasing in the item's age: at equal count, a newer
item (larger timestamp) scores at least as high as an older one. -/
theorem scoreValue_monotone :
    (∀ (nowMs tsMs : ℝ) (s1 s2 : ℕ), s1 ≤ s2 →
      scoreValue s1 nowMs tsMs ≤ scoreValue s2 nowMs tsMs) ∧
    (∀ (nowMs ts1 ts2 : ℝ) (s : ℕ), s ≠ 0 → ts1 ≤ ts2 →
      scoreValue s nowMs ts1 ≤ scoreValue s nowMs ts2) := by
  constructor
  · intro nowMs tsMs s1 s2 hle
    rcases Nat.eq_zero_or_pos s1 with h1 | h1
    · subst h1
      rcases Nat.eq_zero_or_pos s2 with h2 | h2
      · subst h2
        exact le_refl _
      · rw [scoreValue, if_pos rfl, scoreValue, if_neg (by omega)]
        unfold boundedVal
        have hbl := blendVal_ge_half h2 (daysOf nowMs tsMs)
        apply le_min (by norm_num)
        exact le_trans hbl (le_max_right _ _)
    · rw [scoreValue, if_neg (by omega), scoreValue, if_neg (by omega)]
      unfold boundedVal
      exact min_le_min (le_refl _)
        (max_le_max (le_refl _) (blendVal_mono_score h1 hle (daysOf nowMs tsMs)))
  · intro nowMs ts1 ts2 s hs hts
    rw [scoreValue, if_neg hs, scoreValue, if_neg hs]
    unfold boundedVal
    exact min_le_min (le_refl _)
      (max_le_max (le_refl _) (blendVal_anti_days s (daysOf_anti nowMs hts)))

/-- Witness for C8: the count step from 0 to 1 at one timestamp, and a
one-day-older item at count 2. -/
theorem scoreValue_monotone_witness :
    scoreValue 0 0 0 ≤ scoreValue 1 0 0 ∧
    scoreValue 2 0 (-86400000) ≤ scoreValue 2 0 0 :=
  ⟨scoreValue_monotone.1 0 0 0 1 (by norm_num),
   scoreValue_monotone.2 0 (-86400000) 0 2 (by norm_num) (by norm_num)⟩
